import Mathlib

/-!
OCI layout package reader (`internal/ocipackage/oci_layout_package.go`)

A shallow embedding of the reader over an OCI-layout archive: layout
detection, construction (index, manifest, configuration), label lookup and
layer extraction by diffID.

Go values are modelled as follows.

* `error` values are `GoError` (message, plus whether the cause is the
  archive package's "entry does not exist" sentinel); a nil error is `none`.
* The functions the code calls that the given sources do not contain (`path.Join`,
  `path.Clean`, `style.Symbol`, `gzip`, `json.Unmarshal`) are fields of `Lib`,
  so every theorem holds for whatever these functions compute.
* A tar stream is an `Archive`: the entries `tar.Reader.Next` yields in order,
  then either `io.EOF` or an error. Each entry carries its raw header bytes so
  that the bytes of the underlying stream are known (`rawBytes`).
* A run-time panic (index out of range, digest without a separator) is the
  outcome `Outcome.panic`.
-/

namespace OciPackage

/-! ## Errors and outcomes -/

/-- Go `error` value: its message and whether its cause is `archive.ErrEntryNotExist`. -/
structure GoError where
  msg : String
  entryNotExist : Bool
  deriving DecidableEq, Repr

/-- The call `errors.New(m)` / `errors.Errorf(m)`. -/
def errorsNew (m : String) : GoError := ⟨m, false⟩

/-- The call `errors.Wrap(e, m)`: message `m: <e>`, same cause. -/
def errorsWrap (e : GoError) (m : String) : GoError := ⟨m ++ ": " ++ e.msg, e.entryNotExist⟩

/-- Result of a Go function returning `(value, error)` that may also panic. -/
inductive Outcome (α : Type) where
  | ok (a : α)
  | error (e : GoError)
  | panic
  deriving Repr

/-! ## Archive streams -/

/-- One archive member as seen by `tar.Reader`. -/
structure TarEntry where
  /-- raw header block(s) as stored in the stream -/
  header : List Nat
  /-- the parsed `header.Name` -/
  name : String
  /-- the member's content (`header.Size` bytes) -/
  data : List Nat
  deriving DecidableEq, Repr

/-- How the sequence of members ends: `tr.Next()` returns `io.EOF`, or an error. -/
inductive TarEnd where
  | eof (trailer : List Nat)
  | broken (err : GoError) (rest : List Nat)
  deriving DecidableEq, Repr

/-- A tar stream: the members in archive order and the way the stream ends. -/
structure Archive where
  entries : List TarEntry
  ending : TarEnd
  deriving DecidableEq, Repr

/-- Zero bytes that pad a member of `n` bytes to the 512-byte block size. -/
def tarPadding (n : Nat) : List Nat := List.replicate ((512 - n % 512) % 512) 0

/-- Raw bytes left in the stream after the last member. -/
def TarEnd.bytes : TarEnd → List Nat
  | .eof trailer => trailer
  | .broken _ rest => rest

/-- Raw bytes of the members `es` followed by the stream ending. -/
def rawBytes : List TarEntry → TarEnd → List Nat
  | [], ending => ending.bytes
  | e :: es, ending => e.header ++ e.data ++ tarPadding e.data.length ++ rawBytes es ending

/-- An `io.ReadCloser` returned by `blob.Open()`: the archive it reads, and the
result of its `n`-th `Close` call (counting from zero). -/
structure Stream where
  archive : Archive
  closeResult : Nat → Option GoError

/-- A `dist.Blob`: the result of its `k`-th `Open` call (counting from zero). -/
structure Blob where
  Open : Nat → Except GoError Stream

/-! ## Documents -/

/-- The `v1.Descriptor` fields the reader uses. -/
structure Descriptor where
  mediaType : String
  digest : String
  deriving DecidableEq, Repr

/-- The `v1.Index` fields the reader uses. -/
structure Index where
  manifests : List Descriptor
  deriving DecidableEq, Repr

/-- The `v1.Manifest` fields the reader uses. -/
structure Manifest where
  config : Descriptor
  layers : List Descriptor
  deriving DecidableEq, Repr

/-- The `v1.Image` fields the reader uses: `Config.Labels` (a map, `none` when
nil) and `RootFS.DiffIDs`. -/
structure Image where
  labels : Option (List (String × String))
  diffIDs : List String
  deriving DecidableEq, Repr

/-- The reader object. -/
structure OciLayoutPackage where
  imageInfo : Image
  manifest : Manifest
  blob : Blob

/-- Functions from outside the given sources. -/
structure Lib where
  /-- Go `path.Clean` -/
  pathClean : String → String
  /-- Go `path.Join` -/
  pathJoin : List String → String
  /-- The function `style.Symbol` -/
  symbol : String → String
  /-- Go `gzip.NewReader` on a source holding these bytes: its error, if any -/
  gzipNewReader : List Nat → Option GoError
  /-- reading a gzip reader over these bytes to the end -/
  gzipReadAll : List Nat → Except GoError (List Nat)
  /-- Go `json.Unmarshal` into a `v1.Index` -/
  decodeIndex : List Nat → Except GoError Index
  /-- Go `json.Unmarshal` into a `v1.Manifest` -/
  decodeManifest : List Nat → Except GoError Manifest
  /-- Go `json.Unmarshal` into a `v1.Image` -/
  decodeImage : List Nat → Except GoError Image

/-! ## `pathFromDescriptor` -/

/-- The method `Digest.sepIndex`: position of the first `:`; `none` is the panic. -/
def sepIndex (d : String) : Option Nat :=
  let i := d.data.indexOf ':'
  if i < d.data.length then some i else none

/-- The function `pathFromDescriptor`: `path.Join("/blobs", algorithm, encoded)`; `none` when
the digest has no separator (the digest accessors panic). -/
def pathFromDescriptor (lib : Lib) (descriptor : Descriptor) : Option String :=
  match sepIndex descriptor.digest with
  | none => none
  | some i =>
    some (lib.pathJoin ["/blobs", String.mk (descriptor.digest.data.take i),
      String.mk (descriptor.digest.data.drop (i + 1))])

/-- Go `strings.HasSuffix`. -/
def hasSuffix (s suffix : String) : Bool := suffix.data.isSuffixOf s.data

/-! ## Archive entry lookup (`pkg/archive`, outside the given sources) -/

/-- Modelled from the spec: `archive.ReadTarEntry`, the archive entry lookup of
`pkg/archive`, whose source is not available. "Given an opened stream and a
normalized path, returns that entry's metadata and, where requested, its raw
bytes, or signals entry not found distinctly from other I/O failures": the
members are scanned in order, a member whose normalized name equals the
normalized path is returned, a scan that completes without one reports the
"entry does not exist" error, and a scan that fails reports that failure.
Normalization is `path.Clean`, the one `GetLayer` compares names with. -/
def ReadTarEntry (lib : Lib) (path : String) : List TarEntry → TarEnd → Except GoError TarEntry
  | [], .eof _ => .error ⟨"entry not found", true⟩
  | [], .broken err _ => .error ⟨err.msg, false⟩
  | e :: es, ending =>
    if lib.pathClean e.name = lib.pathClean path then .ok e else ReadTarEntry lib path es ending

/-- Modelled from the spec: `archive.IsEntryNotExist`, which tells the "entry
not found" signal of the lookup apart from other failures. -/
def IsEntryNotExist (err : GoError) : Bool := err.entryNotExist

/-! ## `IsOCILayoutBlob` -/

/-- The function `IsOCILayoutBlob`, run when `k` earlier `Open` calls were made on the blob.
The deferred `readCloser.Close()` runs on every path after a successful open and
its result is discarded. -/
def IsOCILayoutBlob (lib : Lib) (blob : Blob) (k : Nat) : Bool × Option GoError :=
  match blob.Open k with
  | .error err => (false, some err)
  | .ok readCloser =>
    match ReadTarEntry lib "/oci-layout" readCloser.archive.entries readCloser.archive.ending with
    | .error err => if IsEntryNotExist err then (false, none) else (false, some err)
    | .ok _ => (true, none)

/-! ## `NewOCILayoutPackage` -/

/-- The function `unmarshalJSONFromBlob`, on the `k`-th `Open` call of the blob. The deferred
`reader.Close()` does not influence the result. -/
def unmarshalJSONFromBlob {α : Type} (lib : Lib) (blob : Blob) (k : Nat) (path : String)
    (decode : List Nat → Except GoError α) : Except GoError α :=
  match blob.Open k with
  | .error err => .error err
  | .ok reader =>
    match ReadTarEntry lib path reader.archive.entries reader.archive.ending with
    | .error err => .error err
    | .ok entry =>
      match decode entry.data with
      | .error err => .error err
      | .ok obj => .ok obj

/-- The media type a manifest descriptor must carry to be selected. -/
def manifestMediaType : String := "application/vnd.docker.distribution.manifest.v2+json"

/-- The selection loop of `NewOCILayoutPackage`: range over the index, stop at
the first descriptor with the expected media type. -/
def findManifest : List Descriptor → Option Descriptor
  | [] => none
  | m :: ms =>
    if m.mediaType = "application/vnd.docker.distribution.manifest.v2+json" then some m
    else findManifest ms

/-- The function `NewOCILayoutPackage`, run when `k` earlier `Open` calls were made. -/
def NewOCILayoutPackage (lib : Lib) (blob : Blob) (k : Nat) : Outcome OciLayoutPackage :=
  match unmarshalJSONFromBlob lib blob k "/index.json" lib.decodeIndex with
  | .error err => .error err
  | .ok index =>
    match findManifest index.manifests with
    | none => .error (errorsNew "unable to find manifest")
    | some manifestDescriptor =>
      match pathFromDescriptor lib manifestDescriptor with
      | none => .panic
      | some manifestPath =>
        match unmarshalJSONFromBlob lib blob (k + 1) manifestPath lib.decodeManifest with
        | .error err => .error err
        | .ok manifest =>
          match pathFromDescriptor lib manifest.config with
          | none => .panic
          | some configPath =>
            match unmarshalJSONFromBlob lib blob (k + 2) configPath lib.decodeImage with
            | .error err => .error err
            | .ok imageInfo => .ok ⟨imageInfo, manifest, blob⟩

/-! ## `Label` -/

/-- Go map indexing `m[name]` on a `map[string]string`: the stored value, or
the empty string when the key is absent or the map is nil. -/
def mapIndex (m : Option (List (String × String))) (name : String) : String :=
  match m with
  | none => ""
  | some kvs => (kvs.lookup name).getD ""

/-- The method `OciLayoutPackage.Label`. -/
def OciLayoutPackage.Label (o : OciLayoutPackage) (name : String) : String × Option GoError :=
  (mapIndex o.imageInfo.labels name, none)

/-! ## `GetLayer` -/

/-- The stream `GetLayer` returns. -/
structure LayerStream where
  /-- whether `finalReader` is `gzip.NewReader(tr)`; when false it is `blobReader` itself -/
  gzipped : Bool
  /-- the member `tr` is positioned at -/
  entry : TarEntry
  /-- the members after it -/
  following : List TarEntry
  /-- the stream ending -/
  ending : TarEnd
  /-- the stream opened from the blob -/
  blobReader : Stream

/-- What a run of `GetLayer` produces: its result, the number of `Open` calls it
made and the number of `Close` calls it made on the stream it opened. -/
structure LayerCall where
  result : Outcome LayerStream
  opens : Nat
  closes : Nat

/-- The diffID loop of `GetLayer`: range with position `i`, stop at the first
entry whose string form equals `diffID`. -/
def findDiffID (diffID : String) : List String → Nat → Option Nat
  | [], _ => none
  | dID :: rest, i => if dID = diffID then some i else findDiffID diffID rest (i + 1)

/-- The tar loop of `GetLayer` and the code after it. -/
def scanLayer (lib : Lib) (layerDescriptor : Descriptor) (layerPath : String)
    (blobReader : Stream) (ending : TarEnd) : List TarEntry → LayerCall
  | [] =>
    match ending with
    | .broken err _ => ⟨.error (errorsWrap err "failed to get next tar entry"), 1, 0⟩
    | .eof _ =>
      match blobReader.closeResult 0 with
      | some err => ⟨.error err, 1, 1⟩
      | none => ⟨.error (errorsNew ("layer blob " ++ lib.symbol layerPath ++ " not found")), 1, 1⟩
  | header :: rest =>
    if lib.pathClean header.name = lib.pathClean layerPath then
      if hasSuffix layerDescriptor.mediaType ".gzip" then
        match lib.gzipNewReader header.data with
        | some err => ⟨.error err, 1, 0⟩
        | none => ⟨.ok ⟨true, header, rest, ending, blobReader⟩, 1, 0⟩
      else ⟨.ok ⟨false, header, rest, ending, blobReader⟩, 1, 0⟩
    else scanLayer lib layerDescriptor layerPath blobReader ending rest

/-- The method `OciLayoutPackage.GetLayer`, run when `k` earlier `Open` calls were made. -/
def OciLayoutPackage.GetLayer (lib : Lib) (o : OciLayoutPackage) (k : Nat) (diffID : String) :
    LayerCall :=
  match findDiffID diffID o.imageInfo.diffIDs 0 with
  | none => ⟨.error (errorsNew ("layer " ++ lib.symbol diffID ++ " not found in rootfs")), 0, 0⟩
  | some index =>
    match o.manifest.layers[index]? with
    | none => ⟨.panic, 0, 0⟩
    | some layerDescriptor =>
      match pathFromDescriptor lib layerDescriptor with
      | none => ⟨.panic, 0, 0⟩
      | some layerPath =>
        match o.blob.Open k with
        | .error err => ⟨.error err, 1, 0⟩
        | .ok blobReader =>
          scanLayer lib layerDescriptor layerPath blobReader blobReader.archive.ending
            blobReader.archive.entries

/-- Reading the returned stream to its end. The gzip reader reads from `tr`,
which stops at the end of the member; `blobReader` is the underlying stream,
positioned after the member header. -/
def LayerStream.readAll (lib : Lib) (s : LayerStream) : Except GoError (List Nat) :=
  if s.gzipped then lib.gzipReadAll s.entry.data
  else .ok (s.entry.data ++ tarPadding s.entry.data.length ++ rawBytes s.following s.ending)

/-- A `Close` call made by the closer of the returned stream. -/
inductive CloseCall where
  | wrapper
  | blob
  deriving DecidableEq, Repr

/-- The closer `GetLayer` passes to `ioutils.NewReadCloserWrapper`: closes
`finalReader`, returns on error, then closes `blobReader`. `gzipClose` is what
the gzip reader's `Close` returns, `closes` the number of earlier `Close` calls
on `blobReader`. Gives the returned error and the `Close` calls made. -/
def LayerStream.Close (s : LayerStream) (gzipClose : Option GoError) (closes : Nat) :
    Option GoError × List CloseCall :=
  if s.gzipped then
    match gzipClose with
    | some err => (some err, [.wrapper])
    | none => (s.blobReader.closeResult closes, [.wrapper, .blob])
  else
    match s.blobReader.closeResult closes with
    | some err => (some err, [.blob])
    | none => (s.blobReader.closeResult (closes + 1), [.blob, .blob])

/-! ## A concrete instance of the primitives and a sample archive

Used to evaluate the definitions on examples. -/

/-- Splits a path at every `/`. -/
def splitSlash : List Char → List (List Char)
  | [] => [[]]
  | c :: cs =>
    match splitSlash cs with
    | [] => [[]]
    | w :: ws => if c = '/' then [] :: w :: ws else (c :: w) :: ws

/-- One step of `path.Clean` on the stack of kept elements (innermost first):
empty and `.` elements are dropped, `..` removes the element before it, is
dropped at the root and is kept at the start of a relative path. -/
def cleanStep (rooted : Bool) (stack : List (List Char)) (elem : List Char) : List (List Char) :=
  if elem = [] ∨ elem = ['.'] then stack
  else if elem = ['.', '.'] then
    match stack with
    | [] => if rooted then [] else [elem]
    | top :: below => if top = ['.', '.'] then elem :: stack else below
  else elem :: stack

/-- Go's `path.Clean`. -/
def goPathClean (p : String) : String :=
  let rooted := p.data.head? = some '/'
  let kept := ((splitSlash p.data).foldl (cleanStep rooted) []).reverse
  let body := String.mk (List.intercalate ['/'] kept)
  let out := if rooted then "/" ++ body else body
  if out = "" then "." else out

/-- Go's `path.Join`: the non-empty elements joined by `/` and cleaned; the
empty string when there is none. -/
def goPathJoin (elems : List String) : String :=
  match elems.filter (fun e => e ≠ "") with
  | [] => ""
  | parts => goPathClean (String.intercalate "/" parts)

/-- Error of the stand-in gzip reader on bytes without the gzip magic number. -/
def gzipErrHeader : GoError := ⟨"gzip: invalid header", false⟩

/-- A decoder that accepts exactly the one-byte document `tag`. -/
def decodeTagged {α : Type} (tag : Nat) (doc : α) (bytes : List Nat) : Except GoError α :=
  if bytes = [tag] then .ok doc else .error ⟨"unexpected end of JSON input", false⟩

/-- The index of the sample archive: its second and third descriptors carry the
expected manifest media type. -/
def sampleIndex : Index :=
  ⟨[⟨"application/vnd.oci.image.manifest.v1+json", "sha256:m0"⟩,
    ⟨manifestMediaType, "sha256:m1"⟩,
    ⟨manifestMediaType, "sha256:m2"⟩]⟩

/-- The manifest of the sample archive: a plain layer and a gzip layer. -/
def sampleManifest : Manifest :=
  ⟨⟨"application/vnd.docker.container.image.v1+json", "sha256:c1"⟩,
   [⟨"application/vnd.docker.image.rootfs.diff.tar", "sha256:l0"⟩,
    ⟨"application/vnd.docker.image.rootfs.diff.tar.gzip", "sha256:l1"⟩]⟩

/-- The image configuration of the sample archive. -/
def sampleImage : Image := ⟨some [("foo", "bar")], ["sha256:d0", "sha256:d1"]⟩

/-- Concrete primitives: the `path` functions of Go, `style.Symbol` with colour
disabled (single quotes), a stand-in gzip codec whose compressed form is the
magic bytes 31, 139 followed by the content, and decoders for the sample
documents. -/
def sampleLib : Lib where
  pathClean := goPathClean
  pathJoin := goPathJoin
  symbol := fun v => "\x27" ++ v ++ "\x27"
  gzipNewReader := fun bytes =>
    match bytes with
    | 31 :: 139 :: _ => none
    | _ => some gzipErrHeader
  gzipReadAll := fun bytes =>
    match bytes with
    | 31 :: 139 :: content => .ok content
    | _ => .error gzipErrHeader
  decodeIndex := decodeTagged 1 sampleIndex
  decodeManifest := decodeTagged 2 sampleManifest
  decodeImage := decodeTagged 3 sampleImage

/-- A stand-in for the raw 512-byte header block of a sample member; the model
does not interpret its content. -/
def sampleHeader : List Nat := List.replicate 512 1

/-- The plain layer member of the sample archive. -/
def plainLayerEntry : TarEntry := ⟨sampleHeader, "/blobs/sha256/l0", [10, 11, 12]⟩

/-- The gzip layer member of the sample archive, holding the compressed form of `[20, 21]`. -/
def gzipLayerEntry : TarEntry := ⟨sampleHeader, "/blobs/sha256/l1", [31, 139, 20, 21]⟩

/-- The members of the sample archive. -/
def sampleEntries : List TarEntry :=
  [⟨sampleHeader, "/oci-layout", [0]⟩,
   ⟨sampleHeader, "/index.json", [1]⟩,
   ⟨sampleHeader, "/blobs/sha256/m1", [2]⟩,
   ⟨sampleHeader, "/blobs/sha256/c1", [3]⟩,
   plainLayerEntry,
   gzipLayerEntry]

/-- The end-of-archive marker: two zero blocks. -/
def sampleTrailer : List Nat := List.replicate 1024 0

/-- The sample archive. -/
def sampleArchive : Archive := ⟨sampleEntries, .eof sampleTrailer⟩

/-- A stream over `archive` whose `Close` never fails. -/
def streamOf (archive : Archive) : Stream := ⟨archive, fun _ => none⟩

/-- A blob every `Open` of which gives `stream`. -/
def blobOf (stream : Stream) : Blob := ⟨fun _ => .ok stream⟩

/-- The reader object over the sample archive. -/
def samplePackage : OciLayoutPackage := ⟨sampleImage, sampleManifest, blobOf (streamOf sampleArchive)⟩

/-- An archive without the marker entry. -/
def unmarkedArchive : Archive := ⟨[plainLayerEntry, gzipLayerEntry], .eof sampleTrailer⟩

/-- An archive that holds only the marker entry. -/
def markerOnlyArchive : Archive := ⟨[⟨sampleHeader, "/oci-layout", [0]⟩], .eof sampleTrailer⟩

/-- An archive cut off after its first member: the next header read fails. -/
def truncatedArchive : Archive :=
  ⟨[⟨sampleHeader, "/oci-layout", [0]⟩], .broken ⟨"unexpected EOF", false⟩ [0, 0, 0]⟩

/-- An archive whose member at the gzip layer's path does not hold gzip data. -/
def badGzipArchive : Archive :=
  ⟨[⟨sampleHeader, "/blobs/sha256/l1", [1, 2, 3, 4, 5, 6, 7, 8, 9, 10]⟩], .eof sampleTrailer⟩

/-- An index without a descriptor of the expected manifest media type. -/
def ociOnlyIndex : Index := ⟨[⟨"application/vnd.oci.image.manifest.v1+json", "sha256:m0"⟩]⟩

/-- The concrete primitives, with an index decoder that yields `ociOnlyIndex`. -/
def ociOnlyLib : Lib := { sampleLib with decodeIndex := decodeTagged 1 ociOnlyIndex }

/-- A stream over `archive` whose `Close` always fails. -/
def failingCloseStream (archive : Archive) : Stream :=
  ⟨archive, fun _ => some ⟨"close failed", false⟩⟩

/-- A blob that cannot be opened. -/
def unopenableBlob : Blob := ⟨fun _ => .error ⟨"no such file", false⟩⟩

/-- The sample manifest with a first layer digest that has no `:` separator. -/
def noSeparatorManifest : Manifest :=
  ⟨⟨"application/vnd.docker.container.image.v1+json", "sha256:c1"⟩,
   [⟨"application/vnd.docker.image.rootfs.diff.tar", "sha256l0"⟩,
    ⟨"application/vnd.docker.image.rootfs.diff.tar.gzip", "sha256:l1"⟩]⟩

/-- An index whose only descriptor has the expected manifest media type and a
digest without a `:` separator. -/
def noSeparatorIndex : Index := ⟨[⟨manifestMediaType, "sha256m1"⟩]⟩

/-- The concrete primitives, with an index decoder that yields `noSeparatorIndex`. -/
def noSeparatorLib : Lib := { sampleLib with decodeIndex := decodeTagged 1 noSeparatorIndex }

/-- The sample reader object over another stream. -/
def packageOver (stream : Stream) : OciLayoutPackage := ⟨sampleImage, sampleManifest, blobOf stream⟩

/-! ## Lemmas on the loops -/

theorem findDiffID_first (d : String) :
    ∀ (l : List String) (n i : Nat), l[i]? = some d → d ∉ l.take i →
      findDiffID d l n = some (n + i) := by
  intro l
  induction l with
  | nil => intro n i h _; simp at h
  | cons a l ih =>
    intro n i h hfirst
    cases i with
    | zero =>
      have ha : a = d := by simpa using h
      simp [findDiffID, ha]
    | succ i =>
      have ha : a ≠ d := by
        intro hEq
        exact hfirst (by simp [hEq])
      have hrec := ih (n + 1) i (by simpa using h) (by
        intro hmem
        exact hfirst (by simp [hmem]))
      simp only [findDiffID, if_neg ha, hrec]
      congr 1
      omega

theorem findDiffID_absent (d : String) :
    ∀ (l : List String) (n : Nat), d ∉ l → findDiffID d l n = none := by
  intro l
  induction l with
  | nil => intro n _; rfl
  | cons a l ih =>
    intro n h
    have ha : a ≠ d := fun hEq => h (by simp [hEq])
    have hl : d ∉ l := fun hm => h (List.mem_cons_of_mem a hm)
    simp only [findDiffID, if_neg ha, ih (n + 1) hl]

theorem findManifest_first :
    ∀ (l : List Descriptor) (i : Nat) (m : Descriptor), l[i]? = some m →
      m.mediaType = "application/vnd.docker.distribution.manifest.v2+json" →
      (∀ m' ∈ l.take i,
        m'.mediaType ≠ "application/vnd.docker.distribution.manifest.v2+json") →
      findManifest l = some m := by
  intro l
  induction l with
  | nil => intro i m h; simp at h
  | cons a l ih =>
    intro i m h hm hfirst
    cases i with
    | zero =>
      have ha : a = m := by simpa using h
      simp [findManifest, ha, hm]
    | succ i =>
      have ha := hfirst a (by simp)
      have hrec := ih i m (by simpa using h) hm (by
        intro m' hmem
        exact hfirst m' (by simp [hmem]))
      simp only [findManifest, if_neg ha, hrec]

theorem findManifest_absent :
    ∀ (l : List Descriptor),
      (∀ m ∈ l, m.mediaType ≠ "application/vnd.docker.distribution.manifest.v2+json") →
      findManifest l = none := by
  intro l
  induction l with
  | nil => intro _; rfl
  | cons a l ih =>
    intro h
    have ha := h a (by simp)
    simp only [findManifest, if_neg ha]
    exact ih (fun m hm => h m (List.mem_cons_of_mem a hm))

theorem readTarEntry_absent (lib : Lib) (path : String) (trailer : List Nat) :
    ∀ (es : List TarEntry), (∀ e ∈ es, lib.pathClean e.name ≠ lib.pathClean path) →
      ReadTarEntry lib path es (.eof trailer) = .error ⟨"entry not found", true⟩ := by
  intro es
  induction es with
  | nil => intro _; rfl
  | cons a es ih =>
    intro h
    have ha := h a (by simp)
    simp only [ReadTarEntry, if_neg ha]
    exact ih (fun e he => h e (List.mem_cons_of_mem a he))

theorem readTarEntry_present (lib : Lib) (path : String) (ending : TarEnd) :
    ∀ (es : List TarEntry) (e : TarEntry), e ∈ es → lib.pathClean e.name = lib.pathClean path →
      ∃ e', ReadTarEntry lib path es ending = .ok e' := by
  intro es
  induction es with
  | nil => intro e he; simp at he
  | cons a es ih =>
    intro e he hm
    by_cases ha : lib.pathClean a.name = lib.pathClean path
    · exact ⟨a, by simp only [ReadTarEntry, if_pos ha]⟩
    · have he' : e ∈ es := by
        rcases List.mem_cons.mp he with h | h
        · exact absurd (h ▸ hm) ha
        · exact h
      obtain ⟨e', h'⟩ := ih e he' hm
      exact ⟨e', by simp only [ReadTarEntry, if_neg ha, h']⟩

theorem scanLayer_first (lib : Lib) (L : Descriptor) (layerPath : String) (s : Stream)
    (ending : TarEnd) :
    ∀ (es : List TarEntry) (j : Nat) (e : TarEntry), es[j]? = some e →
      lib.pathClean e.name = lib.pathClean layerPath →
      (∀ e' ∈ es.take j, lib.pathClean e'.name ≠ lib.pathClean layerPath) →
      scanLayer lib L layerPath s ending es =
        if hasSuffix L.mediaType ".gzip" then
          match lib.gzipNewReader e.data with
          | some err => ⟨.error err, 1, 0⟩
          | none => ⟨.ok ⟨true, e, es.drop (j + 1), ending, s⟩, 1, 0⟩
        else ⟨.ok ⟨false, e, es.drop (j + 1), ending, s⟩, 1, 0⟩ := by
  intro es
  induction es with
  | nil => intro j e h; simp at h
  | cons a es ih =>
    intro j e h hm hfirst
    cases j with
    | zero =>
      have ha : a = e := by simpa using h
      subst ha
      simp only [scanLayer, if_pos hm, Nat.zero_add, List.drop_succ_cons, List.drop_zero]
    | succ j =>
      have ha := hfirst a (by simp)
      have hrec := ih j e (by simpa using h) hm (by
        intro e' hmem
        exact hfirst e' (by simp [hmem]))
      simp only [scanLayer, if_neg ha, hrec, List.drop_succ_cons]

theorem scanLayer_exhausted (lib : Lib) (L : Descriptor) (layerPath : String) (s : Stream)
    (ending : TarEnd) :
    ∀ (es : List TarEntry), (∀ e ∈ es, lib.pathClean e.name ≠ lib.pathClean layerPath) →
      scanLayer lib L layerPath s ending es = scanLayer lib L layerPath s ending [] := by
  intro es
  induction es with
  | nil => intro _; rfl
  | cons a es ih =>
    intro h
    have ha := h a (by simp)
    rw [scanLayer, if_neg ha]
    exact ih (fun e he => h e (List.mem_cons_of_mem a he))

theorem getLayer_resolved (lib : Lib) (o : OciLayoutPackage) (k : Nat) (d : String) (i : Nat)
    (L : Descriptor) (layerPath : String) (s : Stream)
    (hd : o.imageInfo.diffIDs[i]? = some d) (hfirst : d ∉ o.imageInfo.diffIDs.take i)
    (hL : o.manifest.layers[i]? = some L) (hp : pathFromDescriptor lib L = some layerPath)
    (hopen : o.blob.Open k = .ok s) :
    o.GetLayer lib k d = scanLayer lib L layerPath s s.archive.ending s.archive.entries := by
  have hfind := findDiffID_first d o.imageInfo.diffIDs 0 i hd hfirst
  rw [Nat.zero_add] at hfind
  simp only [OciLayoutPackage.GetLayer, hfind, hL, hp, hopen]

theorem lookup_of_mem_nodup (name v : String) :
    ∀ (kvs : List (String × String)), (kvs.map Prod.fst).Nodup → (name, v) ∈ kvs →
      kvs.lookup name = some v := by
  intro kvs
  induction kvs with
  | nil => intro _ h; simp at h
  | cons kv kvs ih =>
    obtain ⟨key, val⟩ := kv
    intro hnd hmem
    have hnd' : key ∉ kvs.map Prod.fst ∧ (kvs.map Prod.fst).Nodup := by
      simpa [List.nodup_cons] using hnd
    by_cases hk : name = key
    · subst hk
      rcases List.mem_cons.mp hmem with h | h
      · have hv : v = val := by simpa using h
        simp [List.lookup, hv]
      · exact absurd (List.mem_map_of_mem Prod.fst h) hnd'.1
    · have hmem' : (name, v) ∈ kvs := by
        rcases List.mem_cons.mp hmem with h | h
        · exact absurd (by simpa using (congrArg Prod.fst h)) hk
        · exact h
      have hbeq : (name == key) = false := by simpa using hk
      simp only [List.lookup, hbeq]
      exact ih hnd'.2 hmem'

theorem lookup_of_not_mem (name : String) :
    ∀ (kvs : List (String × String)), name ∉ kvs.map Prod.fst → kvs.lookup name = none := by
  intro kvs
  induction kvs with
  | nil => intro _; rfl
  | cons kv kvs ih =>
    obtain ⟨key, val⟩ := kv
    intro h
    have hk : name ≠ key := fun hEq => h (by simp [hEq])
    have hrest : name ∉ kvs.map Prod.fst := fun hm => h (by simp [List.mem_map] at hm ⊢; exact Or.inr hm)
    have hbeq : (name == key) = false := by simpa using hk
    simp only [List.lookup, hbeq]
    exact ih hrest

/-! ## Layer extraction: unknown identifier -/

/-- C2: for an identifier `d` equal to no entry of the configuration's diffID
list, `GetLayer` returns no stream and the error
`layer <style.Symbol(d)> not found in rootfs`, without any `Open` call on the
blob; the message contains `d` whenever the output of `style.Symbol` contains
its argument. -/
theorem getLayer_unknown_diffID (lib : Lib) (o : OciLayoutPackage) (k : Nat) (d : String)
    (h : d ∉ o.imageInfo.diffIDs) :
    (o.GetLayer lib k d).result
        = .error (errorsNew ("layer " ++ lib.symbol d ++ " not found in rootfs")) ∧
      (o.GetLayer lib k d).opens = 0 ∧
      (∀ a b, lib.symbol d = a ++ d ++ b →
        ∃ pre post, "layer " ++ lib.symbol d ++ " not found in rootfs" = pre ++ d ++ post) := by
  have hfind := findDiffID_absent d o.imageInfo.diffIDs 0 h
  refine ⟨?_, ?_, ?_⟩
  · simp only [OciLayoutPackage.GetLayer, hfind]
  · simp only [OciLayoutPackage.GetLayer, hfind]
  · intro a b hab
    refine ⟨"layer " ++ a, b ++ " not found in rootfs", ?_⟩
    rw [hab]
    simp only [String.append_assoc]

/-- Witness for C2 on the sample reader: `sha256:d2` is not a diffID. -/
theorem getLayer_unknown_diffID_witness :
    "sha256:d2" ∉ samplePackage.imageInfo.diffIDs ∧
      (samplePackage.GetLayer sampleLib 0 "sha256:d2").result
        = .error ⟨"layer \x27sha256:d2\x27 not found in rootfs", false⟩ ∧
      (samplePackage.GetLayer sampleLib 0 "sha256:d2").opens = 0 ∧
      (∃ pre post, "layer " ++ sampleLib.symbol "sha256:d2" ++ " not found in rootfs"
        = pre ++ "sha256:d2" ++ post) :=
  ⟨by decide,
   (getLayer_unknown_diffID sampleLib samplePackage 0 "sha256:d2" (by decide)).1,
   (getLayer_unknown_diffID sampleLib samplePackage 0 "sha256:d2" (by decide)).2.1,
   (getLayer_unknown_diffID sampleLib samplePackage 0 "sha256:d2" (by decide)).2.2
      "\x27" "\x27" rfl⟩

/-! ## Label lookup -/

/-- C8: `Label` always returns a nil error; its value is the stored value when
the name is a key of the label map (a map has one value per key), and the empty
string when the name is not a key or the map is nil. -/
theorem label_lookup (o : OciLayoutPackage) (name : String) :
    (o.Label name).2 = none ∧
      (∀ kvs v, o.imageInfo.labels = some kvs → (kvs.map Prod.fst).Nodup → (name, v) ∈ kvs →
        (o.Label name).1 = v) ∧
      (∀ kvs, o.imageInfo.labels = some kvs → name ∉ kvs.map Prod.fst → (o.Label name).1 = "") ∧
      (o.imageInfo.labels = none → (o.Label name).1 = "") := by
  refine ⟨rfl, ?_, ?_, ?_⟩
  · intro kvs v hl hnd hmem
    simp only [OciLayoutPackage.Label, mapIndex, hl, lookup_of_mem_nodup name v kvs hnd hmem,
      Option.getD_some]
  · intro kvs hl hnot
    simp only [OciLayoutPackage.Label, mapIndex, hl, lookup_of_not_mem name kvs hnot,
      Option.getD_none]
  · intro hl
    simp only [OciLayoutPackage.Label, mapIndex, hl]

/-- Witness for C8 on the sample reader: label `foo` has the value `bar`, label
`baz` is absent. -/
theorem label_lookup_witness :
    (samplePackage.Label "foo").2 = none ∧ (samplePackage.Label "foo").1 = "bar" ∧
      (samplePackage.Label "baz").1 = "" :=
  ⟨(label_lookup samplePackage "foo").1,
   (label_lookup samplePackage "foo").2.1 [("foo", "bar")] "bar" rfl (by decide) (by decide),
   (label_lookup samplePackage "baz").2.2.1 [("foo", "bar")] rfl (by decide)⟩

/-! ## Layout detection -/

/-- C9: `IsOCILayoutBlob` has three outcomes. A failed `Open` gives
`(false, err)`. After a successful `Open`, the outcome follows the lookup of
`/oci-layout`: found gives `(true, nil)`, the "entry does not exist" error gives
`(false, nil)`, any other error gives `(false, err)`. In particular an archive
that holds the marker entry gives `(true, nil)`, and an archive that is read to
its end and holds no entry at the marker path gives `(false, nil)`. -/
theorem isOCILayoutBlob_outcomes (lib : Lib) (blob : Blob) (k : Nat) :
    (∀ err, blob.Open k = .error err → IsOCILayoutBlob lib blob k = (false, some err)) ∧
      (∀ s e, blob.Open k = .ok s →
        ReadTarEntry lib "/oci-layout" s.archive.entries s.archive.ending = .ok e →
        IsOCILayoutBlob lib blob k = (true, none)) ∧
      (∀ s err, blob.Open k = .ok s →
        ReadTarEntry lib "/oci-layout" s.archive.entries s.archive.ending = .error err →
        IsEntryNotExist err = true → IsOCILayoutBlob lib blob k = (false, none)) ∧
      (∀ s err, blob.Open k = .ok s →
        ReadTarEntry lib "/oci-layout" s.archive.entries s.archive.ending = .error err →
        IsEntryNotExist err = false → IsOCILayoutBlob lib blob k = (false, some err)) ∧
      (∀ s e, blob.Open k = .ok s → e ∈ s.archive.entries →
        lib.pathClean e.name = lib.pathClean "/oci-layout" →
        IsOCILayoutBlob lib blob k = (true, none)) ∧
      (∀ s trailer, blob.Open k = .ok s → s.archive.ending = .eof trailer →
        (∀ e ∈ s.archive.entries, lib.pathClean e.name ≠ lib.pathClean "/oci-layout") →
        IsOCILayoutBlob lib blob k = (false, none)) := by
  refine ⟨?_, ?_, ?_, ?_, ?_, ?_⟩
  · intro err hopen
    simp only [IsOCILayoutBlob, hopen]
  · intro s e hopen hread
    simp only [IsOCILayoutBlob, hopen, hread]
  · intro s err hopen hread hne
    simp only [IsOCILayoutBlob, hopen, hread, hne, if_true]
  · intro s err hopen hread hne
    simp [IsOCILayoutBlob, hopen, hread, hne]
  · intro s e hopen hmem hname
    obtain ⟨e', hread⟩ :=
      readTarEntry_present lib "/oci-layout" s.archive.ending s.archive.entries e hmem hname
    simp only [IsOCILayoutBlob, hopen, hread]
  · intro s trailer hopen hend hnone
    have hread := readTarEntry_absent lib "/oci-layout" trailer s.archive.entries hnone
    simp [IsOCILayoutBlob, hopen, hend, hread, IsEntryNotExist]

/-- Witness for C9: the sample archive holds the marker, `unmarkedArchive` does
not, and a blob that cannot be opened reports its error. -/
theorem isOCILayoutBlob_outcomes_witness :
    IsOCILayoutBlob sampleLib (blobOf (streamOf sampleArchive)) 0 = (true, none) ∧
      IsOCILayoutBlob sampleLib (blobOf (streamOf unmarkedArchive)) 0 = (false, none) ∧
      IsOCILayoutBlob sampleLib ⟨fun _ => .error ⟨"no such file", false⟩⟩ 0
        = (false, some ⟨"no such file", false⟩) :=
  ⟨(isOCILayoutBlob_outcomes sampleLib (blobOf (streamOf sampleArchive)) 0).2.2.2.2.1
      (streamOf sampleArchive) ⟨sampleHeader, "/oci-layout", [0]⟩ rfl (List.Mem.head _) (by decide),
   (isOCILayoutBlob_outcomes sampleLib (blobOf (streamOf unmarkedArchive)) 0).2.2.2.2.2
      (streamOf unmarkedArchive) sampleTrailer rfl rfl (by decide),
   (isOCILayoutBlob_outcomes sampleLib ⟨fun _ => .error ⟨"no such file", false⟩⟩ 0).1
      ⟨"no such file", false⟩ rfl⟩

/-! ## Construction: manifest selection -/

/-- C7, as stated, fails: the index document `noSeparatorIndex` is read, its
first descriptor has the expected manifest media type, and its digest has no
`:` separator; deriving the path panics, so no manifest is read and
construction returns neither an object nor an error. -/
theorem newOCILayoutPackage_digest_without_separator :
    unmarshalJSONFromBlob noSeparatorLib (blobOf (streamOf sampleArchive)) 0 "/index.json"
        noSeparatorLib.decodeIndex = .ok noSeparatorIndex ∧
      noSeparatorIndex.manifests[0]?
        = some ⟨"application/vnd.docker.distribution.manifest.v2+json", "sha256m1"⟩ ∧
      pathFromDescriptor noSeparatorLib
        ⟨"application/vnd.docker.distribution.manifest.v2+json", "sha256m1"⟩ = none ∧
      NewOCILayoutPackage noSeparatorLib (blobOf (streamOf sampleArchive)) 0 = .panic :=
  ⟨rfl, rfl, by decide, rfl⟩

/-- C7, amended: once the index document is read, take the first descriptor, in
index order, whose media type is
`application/vnd.docker.distribution.manifest.v2+json`, whatever descriptors
follow it, and let its digest have a separator, so that its path `p` is derived.
Then the manifest is read from `p`: an error of that read is the result of
construction; when the read gives a manifest and the configuration is read from
the path of its config descriptor, construction returns the object holding that
manifest and that configuration; and the manifest of every constructed object
is the document read from `p`. When no descriptor of the index has that media
type, construction returns no object and the error `unable to find manifest`. -/
theorem newOCILayoutPackage_first_manifest (lib : Lib) (blob : Blob) (k : Nat) (idx : Index)
    (hidx : unmarshalJSONFromBlob lib blob k "/index.json" lib.decodeIndex = .ok idx) :
    (∀ i m p, idx.manifests[i]? = some m →
        m.mediaType = "application/vnd.docker.distribution.manifest.v2+json" →
        (∀ m' ∈ idx.manifests.take i,
          m'.mediaType ≠ "application/vnd.docker.distribution.manifest.v2+json") →
        pathFromDescriptor lib m = some p →
        (∀ err, unmarshalJSONFromBlob lib blob (k + 1) p lib.decodeManifest = .error err →
          NewOCILayoutPackage lib blob k = .error err) ∧
        (∀ manifest configPath,
          unmarshalJSONFromBlob lib blob (k + 1) p lib.decodeManifest = .ok manifest →
          pathFromDescriptor lib manifest.config = some configPath →
          (∀ imageInfo,
            unmarshalJSONFromBlob lib blob (k + 2) configPath lib.decodeImage = .ok imageInfo →
            NewOCILayoutPackage lib blob k = .ok ⟨imageInfo, manifest, blob⟩) ∧
          (∀ err,
            unmarshalJSONFromBlob lib blob (k + 2) configPath lib.decodeImage = .error err →
            NewOCILayoutPackage lib blob k = .error err)) ∧
        (∀ o, NewOCILayoutPackage lib blob k = .ok o →
          unmarshalJSONFromBlob lib blob (k + 1) p lib.decodeManifest = .ok o.manifest)) ∧
      ((∀ m ∈ idx.manifests,
          m.mediaType ≠ "application/vnd.docker.distribution.manifest.v2+json") →
        NewOCILayoutPackage lib blob k = .error (errorsNew "unable to find manifest")) := by
  constructor
  · intro i m p hget hm hfirst hp
    have hfind := findManifest_first idx.manifests i m hget hm hfirst
    refine ⟨?_, ?_, ?_⟩
    · intro err herr
      simp only [NewOCILayoutPackage, hidx, hfind, hp, herr]
    · intro manifest configPath hman hcp
      constructor
      · intro imageInfo himg
        simp only [NewOCILayoutPackage, hidx, hfind, hp, hman, hcp, himg]
      · intro err herr
        simp only [NewOCILayoutPackage, hidx, hfind, hp, hman, hcp, herr]
    · intro o ho
      simp only [NewOCILayoutPackage, hidx, hfind, hp] at ho
      split at ho
      · cases ho
      · rename_i manifest hman
        split at ho
        · cases ho
        · split at ho
          · cases ho
          · cases ho
            exact hman
  · intro hnone
    have hfind := findManifest_absent idx.manifests hnone
    simp only [NewOCILayoutPackage, hidx, hfind]

/-- Witness for the amended C7 on the sample archive: the index holds two
descriptors of the expected media type, at positions 1 and 2; the manifest is
read from the path of the one at position 1 and the object is constructed with
it. With an index that holds no such descriptor, construction fails with
`unable to find manifest`. -/
theorem newOCILayoutPackage_first_manifest_witness :
    unmarshalJSONFromBlob sampleLib (blobOf (streamOf sampleArchive)) 0 "/index.json"
        sampleLib.decodeIndex = .ok sampleIndex ∧
      sampleIndex.manifests[1]?
        = some ⟨"application/vnd.docker.distribution.manifest.v2+json", "sha256:m1"⟩ ∧
      sampleIndex.manifests[2]?
        = some ⟨"application/vnd.docker.distribution.manifest.v2+json", "sha256:m2"⟩ ∧
      unmarshalJSONFromBlob sampleLib (blobOf (streamOf sampleArchive)) 1 "/blobs/sha256/m1"
        sampleLib.decodeManifest = .ok sampleManifest ∧
      NewOCILayoutPackage sampleLib (blobOf (streamOf sampleArchive)) 0
        = .ok ⟨sampleImage, sampleManifest, blobOf (streamOf sampleArchive)⟩ ∧
      unmarshalJSONFromBlob ociOnlyLib (blobOf (streamOf sampleArchive)) 0 "/index.json"
        ociOnlyLib.decodeIndex = .ok ociOnlyIndex ∧
      NewOCILayoutPackage ociOnlyLib (blobOf (streamOf sampleArchive)) 0
        = .error ⟨"unable to find manifest", false⟩ :=
  ⟨rfl, rfl, rfl, rfl,
   (((newOCILayoutPackage_first_manifest sampleLib (blobOf (streamOf sampleArchive)) 0
      sampleIndex rfl).1 1 ⟨"application/vnd.docker.distribution.manifest.v2+json", "sha256:m1"⟩
      "/blobs/sha256/m1" rfl rfl (by decide) (by decide)).2.1 sampleManifest "/blobs/sha256/c1"
      rfl (by decide)).1 sampleImage rfl,
   rfl,
   (newOCILayoutPackage_first_manifest ociOnlyLib (blobOf (streamOf sampleArchive)) 0
      ociOnlyIndex rfl).2 (by decide)⟩

/-! ## Layer extraction: a located layer -/

/-- C1, as stated, fails. The diffID list and the layer list of the sample
reader have the same length and the first occurrence of `sha256:d1` is at
position 1. Over `badGzipArchive` the first member at the path of layer 1 does
not hold gzip data: `GetLayer` returns the error of `gzip.NewReader` and no
stream. Over a blob that cannot be opened `GetLayer` returns the error of
`Open`. With a layer digest that has no `:` separator, deriving the path
panics. -/
theorem getLayer_located_without_stream :
    sampleImage.diffIDs.length = sampleManifest.layers.length ∧
      sampleImage.diffIDs[1]? = some "sha256:d1" ∧
      "sha256:d1" ∉ sampleImage.diffIDs.take 1 ∧
      pathFromDescriptor sampleLib
        ⟨"application/vnd.docker.image.rootfs.diff.tar.gzip", "sha256:l1"⟩
        = some "/blobs/sha256/l1" ∧
      badGzipArchive.entries[0]?
        = some ⟨sampleHeader, "/blobs/sha256/l1", [1, 2, 3, 4, 5, 6, 7, 8, 9, 10]⟩ ∧
      ((packageOver (streamOf badGzipArchive)).GetLayer sampleLib 0 "sha256:d1").result
        = .error ⟨"gzip: invalid header", false⟩ ∧
      (OciLayoutPackage.GetLayer sampleLib ⟨sampleImage, sampleManifest, unopenableBlob⟩ 0
          "sha256:d1").result = .error ⟨"no such file", false⟩ ∧
      sampleImage.diffIDs.length = noSeparatorManifest.layers.length ∧
      sampleImage.diffIDs[0]? = some "sha256:d0" ∧
      (OciLayoutPackage.GetLayer sampleLib
          ⟨sampleImage, noSeparatorManifest, blobOf (streamOf sampleArchive)⟩ 0
          "sha256:d0").result = .panic :=
  ⟨rfl, rfl, by decide, by decide, rfl, rfl, rfl, rfl, rfl, rfl⟩

/-- C1, amended: when the diffID list and the manifest layer list have the same
length and the first occurrence of `d` in the diffID list is at position `i`,
position `i` is in range of the manifest layer list. When moreover the digest of
`manifest.Layers[i]` has a separator, so that its path is derived, the blob
opens and the archive holds a member whose cleaned name equals the cleaned
`pathFromDescriptor (manifest.Layers[i])`, `GetLayer d` deals with the first
such member in archive order. For a media type without the `.gzip` suffix it
returns a stream positioned at that member, and the bytes read from it begin
with the member's stored bytes. For a media type with the suffix on which the
gzip reader initialises it returns a stream positioned at that member, and
reading it to its end gives what the gzip reader reads from the member's bytes.
When the gzip reader does not initialise, or the blob does not open, `GetLayer`
returns that error and no stream. -/
theorem getLayer_translates_by_position (lib : Lib) (o : OciLayoutPackage) (k : Nat)
    (d : String) (i : Nat)
    (hlen : o.imageInfo.diffIDs.length = o.manifest.layers.length)
    (hd : o.imageInfo.diffIDs[i]? = some d)
    (hfirst : d ∉ o.imageInfo.diffIDs.take i) :
    ∃ L, o.manifest.layers[i]? = some L ∧
      (∀ layerPath err, pathFromDescriptor lib L = some layerPath → o.blob.Open k = .error err →
        (o.GetLayer lib k d).result = .error err) ∧
      ∀ layerPath s j e, pathFromDescriptor lib L = some layerPath → o.blob.Open k = .ok s →
        s.archive.entries[j]? = some e →
        lib.pathClean e.name = lib.pathClean layerPath →
        (∀ e' ∈ s.archive.entries.take j, lib.pathClean e'.name ≠ lib.pathClean layerPath) →
        (hasSuffix L.mediaType ".gzip" = false →
          (o.GetLayer lib k d).result
              = .ok ⟨false, e, s.archive.entries.drop (j + 1), s.archive.ending, s⟩ ∧
            ∃ tail,
              LayerStream.readAll lib
                  ⟨false, e, s.archive.entries.drop (j + 1), s.archive.ending, s⟩
                = .ok (e.data ++ tail)) ∧
        (hasSuffix L.mediaType ".gzip" = true → lib.gzipNewReader e.data = none →
          (o.GetLayer lib k d).result
              = .ok ⟨true, e, s.archive.entries.drop (j + 1), s.archive.ending, s⟩ ∧
            LayerStream.readAll lib
                ⟨true, e, s.archive.entries.drop (j + 1), s.archive.ending, s⟩
              = lib.gzipReadAll e.data) ∧
        (∀ err, hasSuffix L.mediaType ".gzip" = true → lib.gzipNewReader e.data = some err →
          (o.GetLayer lib k d).result = .error err) := by
  have hi : i < o.manifest.layers.length := by
    rw [← hlen]
    by_contra hge
    rw [List.getElem?_eq_none (Nat.le_of_not_lt hge)] at hd
    cases hd
  have hL := List.getElem?_eq_getElem hi
  have hfind := findDiffID_first d o.imageInfo.diffIDs 0 i hd hfirst
  rw [Nat.zero_add] at hfind
  refine ⟨o.manifest.layers[i], hL, ?_, ?_⟩
  · intro layerPath err hp hopen
    simp only [OciLayoutPackage.GetLayer, hfind, hL, hp, hopen]
  · intro layerPath s j e hp hopen hj hm hfirstE
    rw [getLayer_resolved lib o k d i _ layerPath s hd hfirst hL hp hopen,
      scanLayer_first lib _ layerPath s s.archive.ending s.archive.entries j e hj hm hfirstE]
    refine ⟨?_, ?_, ?_⟩
    · intro hsuf
      refine ⟨by simp [hsuf], ?_⟩
      refine ⟨tarPadding e.data.length
        ++ rawBytes (s.archive.entries.drop (j + 1)) s.archive.ending, ?_⟩
      simp [LayerStream.readAll, List.append_assoc]
    · intro hsuf hinit
      refine ⟨by simp only [hsuf, if_true, hinit], ?_⟩
      simp only [LayerStream.readAll, if_true]
    · intro err hsuf hinit
      simp only [hsuf, if_true, hinit]

/-- Witness for the amended C1 on the sample reader, diffIDs `[d0, d1]` and
layers `[l0, l1]`: `GetLayer d1` returns the stream at the member of `l1`, the
last of the archive, and reading it gives the content `[20, 21]` of `l1`;
`GetLayer d0` returns the stream at the member of `l0`, and the bytes read
from it begin with the content `[10, 11, 12]` of `l0`. -/
theorem getLayer_translates_by_position_witness :
    samplePackage.imageInfo.diffIDs.length = samplePackage.manifest.layers.length ∧
      samplePackage.imageInfo.diffIDs[1]? = some "sha256:d1" ∧
      "sha256:d1" ∉ samplePackage.imageInfo.diffIDs.take 1 ∧
      (samplePackage.GetLayer sampleLib 0 "sha256:d1").result
        = .ok ⟨true, gzipLayerEntry, [], .eof sampleTrailer, streamOf sampleArchive⟩ ∧
      LayerStream.readAll sampleLib
          ⟨true, gzipLayerEntry, [], .eof sampleTrailer, streamOf sampleArchive⟩
        = .ok [20, 21] ∧
      samplePackage.imageInfo.diffIDs[0]? = some "sha256:d0" ∧
      (samplePackage.GetLayer sampleLib 0 "sha256:d0").result
        = .ok ⟨false, plainLayerEntry, [gzipLayerEntry], .eof sampleTrailer,
            streamOf sampleArchive⟩ ∧
      (∃ tail,
        LayerStream.readAll sampleLib
            ⟨false, plainLayerEntry, [gzipLayerEntry], .eof sampleTrailer,
              streamOf sampleArchive⟩
          = .ok ([10, 11, 12] ++ tail)) := by
  obtain ⟨L, hL, _, h⟩ := getLayer_translates_by_position sampleLib samplePackage 0 "sha256:d1" 1
    rfl rfl (by decide)
  have hL1 : L = ⟨"application/vnd.docker.image.rootfs.diff.tar.gzip", "sha256:l1"⟩ :=
    (Option.some.inj hL).symm
  subst hL1
  have hgz := (h "/blobs/sha256/l1" (streamOf sampleArchive) 5 gzipLayerEntry rfl rfl rfl
    (by decide) (by decide)).2.1 (by decide) rfl
  obtain ⟨L0, hL0, _, h0⟩ := getLayer_translates_by_position sampleLib samplePackage 0
    "sha256:d0" 0 rfl rfl (by decide)
  have hL0' : L0 = ⟨"application/vnd.docker.image.rootfs.diff.tar", "sha256:l0"⟩ :=
    (Option.some.inj hL0).symm
  subst hL0'
  have hplain := (h0 "/blobs/sha256/l0" (streamOf sampleArchive) 4 plainLayerEntry rfl rfl rfl
    (by decide) (by decide)).1 (by decide)
  exact ⟨rfl, rfl, by decide, hgz.1, hgz.2.trans rfl, rfl, hplain.1, hplain.2⟩

/-- C4: for a located layer, the returned stream is the gzip wrapper if and only
if the media type has the suffix `.gzip`; and when it has, and the located
member holds the compressed form of `x` (the gzip reader initialises on the
member's bytes and reads `x` from them), reading the returned stream to its end
yields exactly `x`. -/
theorem getLayer_gzip_decompresses (lib : Lib) (o : OciLayoutPackage) (k : Nat) (d : String)
    (i : Nat) (L : Descriptor) (layerPath : String) (s : Stream) (j : Nat) (e : TarEntry)
    (hd : o.imageInfo.diffIDs[i]? = some d) (hfirst : d ∉ o.imageInfo.diffIDs.take i)
    (hL : o.manifest.layers[i]? = some L) (hp : pathFromDescriptor lib L = some layerPath)
    (hopen : o.blob.Open k = .ok s) (hj : s.archive.entries[j]? = some e)
    (hm : lib.pathClean e.name = lib.pathClean layerPath)
    (hfirstE : ∀ e' ∈ s.archive.entries.take j, lib.pathClean e'.name ≠ lib.pathClean layerPath) :
    (∀ ls, (o.GetLayer lib k d).result = .ok ls →
        (ls.gzipped = true ↔ hasSuffix L.mediaType ".gzip" = true)) ∧
      (∀ x, hasSuffix L.mediaType ".gzip" = true → lib.gzipNewReader e.data = none →
        lib.gzipReadAll e.data = .ok x →
        ∃ ls, (o.GetLayer lib k d).result = .ok ls ∧ ls.readAll lib = .ok x) := by
  rw [getLayer_resolved lib o k d i L layerPath s hd hfirst hL hp hopen,
    scanLayer_first lib L layerPath s s.archive.ending s.archive.entries j e hj hm hfirstE]
  constructor
  · intro ls hls
    by_cases hsuf : hasSuffix L.mediaType ".gzip" = true
    · simp only [hsuf, if_true] at hls
      split at hls
      · cases hls
      · cases hls
        simp [hsuf]
    · have hfalse : hasSuffix L.mediaType ".gzip" = false := by simpa using hsuf
      simp only [hfalse] at hls
      cases hls
      simp [hfalse]
  · intro x hsuf hinit hread
    refine ⟨⟨true, e, s.archive.entries.drop (j + 1), s.archive.ending, s⟩, ?_, ?_⟩
    · simp only [hsuf, if_true, hinit]
    · simp only [LayerStream.readAll, if_true, hread]

/-- Witness for C4 on the sample reader: the layer `l1` has a gzip media type
and its member holds the compressed form of `[20, 21]`. -/
theorem getLayer_gzip_decompresses_witness :
    hasSuffix "application/vnd.docker.image.rootfs.diff.tar.gzip" ".gzip" = true ∧
      (∃ ls, (samplePackage.GetLayer sampleLib 0 "sha256:d1").result = .ok ls ∧
        ls.readAll sampleLib = .ok [20, 21]) ∧
      ((samplePackage.GetLayer sampleLib 0 "sha256:d1").result
          = .ok ⟨true, gzipLayerEntry, [], .eof sampleTrailer, streamOf sampleArchive⟩ →
        (true = true ↔
          hasSuffix "application/vnd.docker.image.rootfs.diff.tar.gzip" ".gzip" = true)) :=
  ⟨by decide,
   (getLayer_gzip_decompresses sampleLib samplePackage 0 "sha256:d1" 1
      ⟨"application/vnd.docker.image.rootfs.diff.tar.gzip", "sha256:l1"⟩ "/blobs/sha256/l1"
      (streamOf sampleArchive) 5 gzipLayerEntry rfl (by decide) rfl rfl rfl rfl (by decide)
      (by decide)).2 [20, 21] (by decide) rfl rfl,
   (getLayer_gzip_decompresses sampleLib samplePackage 0 "sha256:d1" 1
      ⟨"application/vnd.docker.image.rootfs.diff.tar.gzip", "sha256:l1"⟩ "/blobs/sha256/l1"
      (streamOf sampleArchive) 5 gzipLayerEntry rfl (by decide) rfl rfl rfl rfl (by decide)
      (by decide)).1 ⟨true, gzipLayerEntry, [], .eof sampleTrailer, streamOf sampleArchive⟩⟩

/-! ## Layer extraction: a plain layer reads the underlying stream -/

/-- C3: on the sample archive the plain layer `l0` (media type without the
`.gzip` suffix) is located, and the returned stream is `blobReader` itself:
read to its end it yields the three bytes of the member, then the member's
padding, then the header, bytes and padding of the next member and the
end-of-archive blocks, so more than the member's stored bytes. -/
theorem getLayer_plain_reads_past_entry :
    hasSuffix "application/vnd.docker.image.rootfs.diff.tar" ".gzip" = false ∧
      (samplePackage.GetLayer sampleLib 0 "sha256:d0").result
        = .ok ⟨false, plainLayerEntry, [gzipLayerEntry], .eof sampleTrailer,
            streamOf sampleArchive⟩ ∧
      LayerStream.readAll sampleLib
          ⟨false, plainLayerEntry, [gzipLayerEntry], .eof sampleTrailer, streamOf sampleArchive⟩
        = .ok ([10, 11, 12] ++ List.replicate 509 0
            ++ (sampleHeader ++ [31, 139, 20, 21] ++ List.replicate 508 0 ++ sampleTrailer)) ∧
      LayerStream.readAll sampleLib
          ⟨false, plainLayerEntry, [gzipLayerEntry], .eof sampleTrailer, streamOf sampleArchive⟩
        ≠ .ok plainLayerEntry.data := by
  refine ⟨by decide, rfl, rfl, ?_⟩
  intro h
  have hbytes : [10, 11, 12] ++ tarPadding 3 ++ rawBytes [gzipLayerEntry] (.eof sampleTrailer)
      = [10, 11, 12] := Except.ok.inj h
  have hlen := congrArg List.length hbytes
  simp only [List.length_append, List.length_cons, List.length_nil, tarPadding,
    List.length_replicate] at hlen
  omega

/-! ## Closing the returned stream -/

/-- C5: on the sample archive the gzip layer `l1` is located; when the gzip
reader's `Close` fails, the closer of the returned stream returns that error
after the single `Close` call on the wrapper, and makes no `Close` call on the
stream opened from the blob. -/
theorem layer_close_skips_blob_after_wrapper_error :
    (samplePackage.GetLayer sampleLib 0 "sha256:d1").result
        = .ok ⟨true, gzipLayerEntry, [], .eof sampleTrailer, streamOf sampleArchive⟩ ∧
      LayerStream.Close ⟨true, gzipLayerEntry, [], .eof sampleTrailer, streamOf sampleArchive⟩
          (some ⟨"unexpected EOF", false⟩) 0
        = (some ⟨"unexpected EOF", false⟩, [CloseCall.wrapper]) ∧
      CloseCall.blob ∉
        (LayerStream.Close ⟨true, gzipLayerEntry, [], .eof sampleTrailer, streamOf sampleArchive⟩
          (some ⟨"unexpected EOF", false⟩) 0).2 :=
  ⟨rfl, rfl, by decide⟩

/-! ## Layer extraction: error paths -/

/-- C6: two runs of `GetLayer` that fail after a successful `Open` and return
with no `Close` call made on the opened stream: a tar framing error while
scanning (`truncatedArchive`), and a gzip reader that does not initialise on the
located member (`badGzipArchive`). -/
theorem getLayer_error_paths_leave_stream_open :
    ((packageOver (streamOf truncatedArchive)).GetLayer sampleLib 0 "sha256:d0").result
        = .error ⟨"failed to get next tar entry: unexpected EOF", false⟩ ∧
      ((packageOver (streamOf truncatedArchive)).GetLayer sampleLib 0 "sha256:d0").opens = 1 ∧
      ((packageOver (streamOf truncatedArchive)).GetLayer sampleLib 0 "sha256:d0").closes = 0 ∧
      ((packageOver (streamOf badGzipArchive)).GetLayer sampleLib 0 "sha256:d1").result
        = .error ⟨"gzip: invalid header", false⟩ ∧
      ((packageOver (streamOf badGzipArchive)).GetLayer sampleLib 0 "sha256:d1").opens = 1 ∧
      ((packageOver (streamOf badGzipArchive)).GetLayer sampleLib 0 "sha256:d1").closes = 0 :=
  ⟨rfl, rfl, rfl, rfl, rfl, rfl⟩

/-! ## Layer extraction: no member at the layer path -/

/-- C10, as stated, fails: `sha256:d0` is a diffID, the scan of
`markerOnlyArchive` reaches the end without meeting a member at the layer path,
and the `Close` of the opened stream fails; `GetLayer` returns the error of
`Close`, not the `layer blob ... not found` error. -/
theorem getLayer_blob_missing_close_error :
    "sha256:d0" ∈ sampleImage.diffIDs ∧
      (∀ e ∈ markerOnlyArchive.entries,
        sampleLib.pathClean e.name ≠ sampleLib.pathClean "/blobs/sha256/l0") ∧
      ((packageOver (failingCloseStream markerOnlyArchive)).GetLayer sampleLib 0
          "sha256:d0").result = .error ⟨"close failed", false⟩ ∧
      ((packageOver (failingCloseStream markerOnlyArchive)).GetLayer sampleLib 0
          "sha256:d0").result
        ≠ .error (errorsNew ("layer blob " ++ sampleLib.symbol "/blobs/sha256/l0"
            ++ " not found")) := by
  have hres : ((packageOver (failingCloseStream markerOnlyArchive)).GetLayer sampleLib 0
      "sha256:d0").result = .error ⟨"close failed", false⟩ := rfl
  refine ⟨by decide, by decide, hres, ?_⟩
  rw [hres]
  intro h
  exact absurd (Outcome.error.inj h) (by decide)

/-- C10, amended: when `d` is found in the diffID list, the layer descriptor at
its position has the derived path `layerPath`, the blob opens, and the scan
reads the archive to its end without meeting a member whose cleaned name equals
the cleaned `layerPath`, `GetLayer` makes one `Close` call on the opened stream;
when that call reports no error it fails with
`layer blob <style.Symbol(layerPath)> not found` (a message that contains the
path whenever the output of `style.Symbol` contains its argument), and when
that call reports an error it returns that error. -/
theorem getLayer_blob_missing (lib : Lib) (o : OciLayoutPackage) (k : Nat) (d : String)
    (i : Nat) (L : Descriptor) (layerPath : String) (s : Stream) (trailer : List Nat)
    (hd : o.imageInfo.diffIDs[i]? = some d) (hfirst : d ∉ o.imageInfo.diffIDs.take i)
    (hL : o.manifest.layers[i]? = some L) (hp : pathFromDescriptor lib L = some layerPath)
    (hopen : o.blob.Open k = .ok s) (hend : s.archive.ending = .eof trailer)
    (hnone : ∀ e ∈ s.archive.entries, lib.pathClean e.name ≠ lib.pathClean layerPath) :
    (o.GetLayer lib k d).closes = 1 ∧
      (s.closeResult 0 = none →
        (o.GetLayer lib k d).result
          = .error (errorsNew ("layer blob " ++ lib.symbol layerPath ++ " not found"))) ∧
      (∀ err, s.closeResult 0 = some err → (o.GetLayer lib k d).result = .error err) ∧
      (∀ a b, lib.symbol layerPath = a ++ layerPath ++ b →
        ∃ pre post,
          "layer blob " ++ lib.symbol layerPath ++ " not found" = pre ++ layerPath ++ post) := by
  rw [getLayer_resolved lib o k d i L layerPath s hd hfirst hL hp hopen,
    scanLayer_exhausted lib L layerPath s s.archive.ending s.archive.entries hnone, hend]
  refine ⟨?_, ?_, ?_, ?_⟩
  · simp only [scanLayer]
    split <;> rfl
  · intro hclose
    simp only [scanLayer, hclose]
  · intro err hclose
    simp only [scanLayer, hclose]
  · intro a b hab
    refine ⟨"layer blob " ++ a, b ++ " not found", ?_⟩
    rw [hab]
    simp only [String.append_assoc]

/-- Witness for the amended C10: over `markerOnlyArchive` with a stream whose
`Close` succeeds, `GetLayer` of `sha256:d0` closes the stream once and reports
the missing layer blob. -/
theorem getLayer_blob_missing_witness :
    (∀ e ∈ markerOnlyArchive.entries,
        sampleLib.pathClean e.name ≠ sampleLib.pathClean "/blobs/sha256/l0") ∧
      ((packageOver (streamOf markerOnlyArchive)).GetLayer sampleLib 0 "sha256:d0").closes = 1 ∧
      ((packageOver (streamOf markerOnlyArchive)).GetLayer sampleLib 0 "sha256:d0").result
        = .error ⟨"layer blob \x27/blobs/sha256/l0\x27 not found", false⟩ ∧
      (∃ pre post, "layer blob " ++ sampleLib.symbol "/blobs/sha256/l0" ++ " not found"
        = pre ++ "/blobs/sha256/l0" ++ post) :=
  ⟨by decide,
   (getLayer_blob_missing sampleLib (packageOver (streamOf markerOnlyArchive)) 0 "sha256:d0" 0
      ⟨"application/vnd.docker.image.rootfs.diff.tar", "sha256:l0"⟩ "/blobs/sha256/l0"
      (streamOf markerOnlyArchive) sampleTrailer rfl (by decide) rfl rfl rfl rfl (by decide)).1,
   (getLayer_blob_missing sampleLib (packageOver (streamOf markerOnlyArchive)) 0 "sha256:d0" 0
      ⟨"application/vnd.docker.image.rootfs.diff.tar", "sha256:l0"⟩ "/blobs/sha256/l0"
      (streamOf markerOnlyArchive) sampleTrailer rfl (by decide) rfl rfl rfl rfl (by decide)).2.1
      rfl,
   (getLayer_blob_missing sampleLib (packageOver (streamOf markerOnlyArchive)) 0 "sha256:d0" 0
      ⟨"application/vnd.docker.image.rootfs.diff.tar", "sha256:l0"⟩ "/blobs/sha256/l0"
      (streamOf markerOnlyArchive) sampleTrailer rfl (by decide) rfl rfl rfl rfl
      (by decide)).2.2.2 "\x27" "\x27" rfl⟩

end OciPackage
